import Mathlib

/-!
Verification development for the voice lesson-planner service (`main.py`).

The embedding models Python strings as `List Char`.  Pure helpers of the
source (`parse_user_response`, `parse_worksheets`, `_split_into_n`,
`_lines_to_list`, `_extract_section`, `parse_llm_to_sessions`) are
translated to Lean functions, and the stateful Socket.IO handlers
(`voicemessage`, `textmessage`) are modelled as pure step functions on an
explicit conversation-state value.  Regular-expression operations of the
source are modelled as character-level scanners over `List Char`; scanners
whose recursion consumes a match of variable width take an explicit fuel
argument (always called with fuel = input length, which suffices because
every step consumes at least one character).
-/

namespace VoicePlanner

/-- Python whitespace for `str.strip` / `\s` (ASCII part; the source's
inputs relevant to the verified properties use these characters). -/
def isPySpace (c : Char) : Bool :=
  c = ' ' || c = '\t' || c = '\n' || c = '\r' || c = '\x0b' || c = '\x0c'

/-- `str.strip()`: drop whitespace at both ends. -/
def pyStrip (s : List Char) : List Char :=
  ((s.dropWhile isPySpace).reverse.dropWhile isPySpace).reverse

/-- `str.lower()` (ASCII case mapping; the keyword tables of the source are
ASCII or caseless Devanagari). -/
def pyLower (s : List Char) : List Char := s.map Char.toLower

/-- `str.title()`: first cased letter of each word upper-cased, the rest
lower-cased (ASCII letters). -/
def pyTitleGo : List Char → Bool → List Char
  | [], _ => []
  | c :: cs, prevAlpha =>
    (if c.isAlpha then (if prevAlpha then c.toLower else c.toUpper) else c)
      :: pyTitleGo cs c.isAlpha

def pyTitle (s : List Char) : List Char := pyTitleGo s false

/-- Python substring test `pat in hay`. -/
def strIn (pat : List Char) : List Char → Bool
  | [] => pat.isEmpty
  | c :: cs => pat.isPrefixOf (c :: cs) || strIn pat cs

/-- Value of the decimal digit list (used for Python `int(...)` on a string
of digits). -/
def digitsToNat (s : List Char) : Nat :=
  s.foldl (fun acc c => 10 * acc + (c.toNat - '0'.toNat)) 0

/-- First run of decimal digits in a string (`re.findall(r"\d+", s)[0]`),
`none` when the string holds no digit. -/
def firstDigitRun (s : List Char) : Option (List Char) :=
  let t := s.dropWhile (fun c => !c.isDigit)
  let d := t.takeWhile Char.isDigit
  if d.isEmpty then none else some d

/-- `_split_into_n` (main.py:661-667): round-robin distribution of items
into `n` buckets by `index mod n`, with every empty bucket replaced by the
placeholder `["-"]`. -/
def _split_into_n (items : List (List Char)) (n : Nat) : List (List (List Char)) :=
  if items.isEmpty then List.replicate n ["-".toList]
  else
    let buckets :=
      items.enum.foldl
        (fun bs p => bs.set (p.1 % n) (bs.getD (p.1 % n) [] ++ [p.2]))
        (List.replicate n ([] : List (List Char)))
    buckets.map (fun b => if b.isEmpty then ["-".toList] else b)

/-- Python values that `parse_user_response` can put in the `"value"` slot
of its result dict (`None`, a string, a bool, an int). -/
inductive PyVal where
  | vNone : PyVal
  | vStr : List Char → PyVal
  | vBool : Bool → PyVal
  | vInt : Nat → PyVal
deriving DecidableEq

/-- Result dict of `parse_user_response`. -/
structure ParseResult where
  value : PyVal
  needs_clarification : Bool
deriving DecidableEq

/-- Restart commands checked first in `parse_user_response` (main.py:300). -/
def restartCmds : List (List Char) :=
  ["start over".toList, "restart".toList, "शुरू करो".toList, "फिर से".toList]

/-- Subject synonym table of the `SUBJECT_COLLECTION` stage
(main.py:314-327), in source order; the first key that is a substring of
the lowered transcript wins. -/
def subjects_map : List (List Char × List Char) :=
  [("math".toList, "Mathematics".toList), ("maths".toList, "Mathematics".toList),
   ("गणित".toList, "Mathematics".toList),
   ("science".toList, "Science".toList), ("विज्ञान".toList, "Science".toList),
   ("english".toList, "English".toList), ("अंग्रेजी".toList, "English".toList),
   ("hindi".toList, "Hindi".toList), ("हिंदी".toList, "Hindi".toList),
   ("social".toList, "Social Science".toList), ("सामाजिक".toList, "Social Science".toList),
   ("history".toList, "History".toList), ("इतिहास".toList, "History".toList),
   ("geography".toList, "Geography".toList), ("भूगोल".toList, "Geography".toList),
   ("physics".toList, "Physics".toList), ("भौतिकी".toList, "Physics".toList),
   ("chemistry".toList, "Chemistry".toList), ("रसायन".toList, "Chemistry".toList),
   ("biology".toList, "Biology".toList), ("जीव विज्ञान".toList, "Biology".toList),
   ("computer".toList, "Computer Science".toList), ("कंप्यूटर".toList, "Computer Science".toList)]

/-- Affirmative keywords of the `CONFIRMATION` stage (main.py:359). -/
def yes_words : List (List Char) :=
  ["yes".toList, "yeah".toList, "correct".toList, "right".toList, "okay".toList,
   "ok".toList, "sure".toList, "हां".toList, "हाँ".toList, "सही".toList,
   "ठीक".toList, "जी".toList]

/-- Negative keywords of the `CONFIRMATION` stage (main.py:360). -/
def no_words : List (List Char) :=
  ["no".toList, "नहीं".toList, "गलत".toList, "wrong".toList, "नही".toList]

/-- `parse_user_response` (main.py:297-367): maps a transcript plus the
current stage into a typed value or a clarification request.  The restart
commands are checked first; each stage then applies its own keyword /
number matching.  `language_mode` is accepted (as in the source) but never
read. -/
def parse_user_response (transcript : List Char) (stage : List Char)
    (language_mode : Option (List Char)) : ParseResult :=
  let tl := pyStrip (pyLower transcript)
  if restartCmds.any (fun cmd => strIn cmd tl) then
    ⟨PyVal.vStr "RESTART".toList, false⟩
  else if stage = "LANGUAGE_SELECTION".toList then
    if strIn "english".toList tl || strIn "इंग्लिश".toList tl then
      ⟨PyVal.vStr "english".toList, false⟩
    else if strIn "hindi".toList tl || strIn "हिंदी".toList tl then
      ⟨PyVal.vStr "hindi".toList, false⟩
    else ⟨PyVal.vNone, true⟩
  else if stage = "TOPIC_COLLECTION".toList then
    ⟨PyVal.vStr (pyStrip transcript), decide ((pyStrip transcript).length < 3)⟩
  else if stage = "SUBJECT_COLLECTION".toList then
    match subjects_map.find? (fun kv => strIn kv.1 tl) with
    | some kv => ⟨PyVal.vStr kv.2, false⟩
    | none =>
      if (pyStrip transcript).length > 2 then
        ⟨PyVal.vStr (pyTitle (pyStrip transcript)), false⟩
      else ⟨PyVal.vNone, true⟩
  else if stage = "CLASS_COLLECTION".toList then
    match firstDigitRun transcript with
    | some d =>
      let n := digitsToNat d
      if 1 ≤ n ∧ n ≤ 12 then
        ⟨PyVal.vStr ("Class ".toList ++ (Nat.toDigits 10 n)), false⟩
      else ⟨PyVal.vNone, true⟩
    | none => ⟨PyVal.vNone, true⟩
  else if stage = "SESSION_DURATION".toList then
    match firstDigitRun transcript with
    | some d =>
      let n := digitsToNat d
      if 15 ≤ n ∧ n ≤ 90 then ⟨PyVal.vInt n, false⟩ else ⟨PyVal.vNone, true⟩
    | none => ⟨PyVal.vNone, true⟩
  else if stage = "NUM_SESSIONS".toList then
    match firstDigitRun transcript with
    | some d =>
      let n := digitsToNat d
      if 1 ≤ n ∧ n ≤ 10 then ⟨PyVal.vInt n, false⟩ else ⟨PyVal.vNone, true⟩
    | none => ⟨PyVal.vNone, true⟩
  else if stage = "CONFIRMATION".toList then
    if yes_words.any (fun w => strIn w tl) then ⟨PyVal.vBool true, false⟩
    else if no_words.any (fun w => strIn w tl) then ⟨PyVal.vBool false, false⟩
    else ⟨PyVal.vNone, true⟩
  else ⟨PyVal.vNone, true⟩

/-- The `data` dict of `ConversationState` (main.py:173-180).  The four
collected slots hold Python values (initially `None`, later whatever the
interpreter produced); `language` always holds a string. -/
structure ConvData where
  topic : PyVal
  subject : PyVal
  class_level : PyVal
  session_duration : PyVal
  num_sessions : PyVal
  language : List Char
deriving DecidableEq

/-- Fresh `data` dict of `ConversationState.__init__`. -/
def defaultData : ConvData :=
  { topic := PyVal.vNone, subject := PyVal.vNone, class_level := PyVal.vNone
    session_duration := PyVal.vInt 40, num_sessions := PyVal.vInt 4
    language := "English".toList }

/-- `ConversationState` (main.py:168-184).  `history` is append-only and
never read back for logic, and `sid` is only a map key; both are omitted. -/
structure ConvState where
  stage : List Char
  language_mode : Option (List Char)
  data : ConvData
deriving DecidableEq

/-- Fresh state of `ConversationState.__init__`. -/
def initialConvState : ConvState :=
  { stage := "LANGUAGE_SELECTION".toList, language_mode := none, data := defaultData }

/-- String content of a Python value (used where the source assigns an
interpreter value into a slot it then treats as a string; on the executed
paths the value there is always a string). -/
def valAsStr : PyVal → List Char
  | PyVal.vStr s => s
  | _ => []

/-- `PROMPTS["LANGUAGE_SELECTION"]` (main.py:188-205). -/
def prompts_LANGUAGE_SELECTION (lang : List Char) : List Char :=
  if lang = "hindi".toList then
    ("नमस्ते! मैं आपका NCERT पाठ योजना सहायक हूँ।\n\nमैं आवाज़ के माध्यम से एक पूर्ण पाठ योजना बनाने में आपकी सहायता कर सकता हूँ।\n\nआप किस भाषा को पसंद करेंगे?\n1) English\n2) हिंदी (Hindi)\n\nकृपया \x27English\x27 या \x27Hindi\x27 कहें।").toList
  else
    ("Hello! I\x27m your NCERT Lesson Plan Assistant.\n\nI can help you create a complete lesson plan through voice conversation.\n\nWhich language would you prefer?\n1) English\n2) हिंदी (Hindi)\n\nPlease say \x27English\x27 or \x27Hindi\x27.").toList

/-- `PROMPTS["TOPIC_COLLECTION"]` (main.py:206-216). -/
def prompts_TOPIC_COLLECTION (lang : List Char) : List Char :=
  if lang = "hindi".toList then
    ("बढ़िया! चलिए आपकी पाठ योजना बनाना शुरू करते हैं।\n\nपाठ का विषय या शीर्षक क्या है?\nउदाहरण: प्रकाश संश्लेषण, भिन्न, स्वतंत्रता संग्राम").toList
  else
    ("Great! Let\x27s start creating your lesson plan.\n\nWhat is the topic or lesson title?\nExample: Photosynthesis, Fractions, Freedom Struggle").toList

/-- `PROMPTS["SUBJECT_COLLECTION"]` (main.py:218-221). -/
def prompts_SUBJECT_COLLECTION (lang : List Char) : List Char :=
  if lang = "hindi".toList then
    ("यह पाठ किस विषय के लिए है? उदाहरण: गणित, विज्ञान, सामाजिक विज्ञान, अंग्रेज़ी, हिंदी।").toList
  else
    ("Which subject is this lesson for? Example: Mathematics, Science, Social Science, English, Hindi.").toList

/-- `PROMPTS["CLASS_COLLECTION"]` (main.py:222-225). -/
def prompts_CLASS_COLLECTION (lang : List Char) : List Char :=
  if lang = "hindi".toList then
    ("यह पाठ किस कक्षा के लिए है? कृपया 1 से 12 के बीच कक्षा संख्या बताएं।").toList
  else
    ("Which class is this lesson for? Please say class number 1 to 12. Example: Class 5.").toList

/-- `PROMPTS["SESSION_DURATION"]` (main.py:226-229). -/
def prompts_SESSION_DURATION (lang : List Char) : List Char :=
  if lang = "hindi".toList then
    ("प्रत्येक सत्र कितने मिनट का होना चाहिए? 15 से 90 मिनट। उदाहरण: 40 मिनट।").toList
  else
    ("How long should each session be? Please say 15 to 90 minutes. Example: 40 minutes.").toList

/-- `PROMPTS["NUM_SESSIONS"]` (main.py:230-233). -/
def prompts_NUM_SESSIONS (lang : List Char) : List Char :=
  if lang = "hindi".toList then
    ("आपको कितने सत्र चाहिए? 1 से 10। उदाहरण: 4 सत्र।").toList
  else
    ("How many sessions do you need? Please say 1 to 10. Example: 4 sessions.").toList

/-- Decimal rendering of the Python values interpolated into the
confirmation prompt f-strings. -/
def valRepr : PyVal → List Char
  | PyVal.vNone => "None".toList
  | PyVal.vStr s => s
  | PyVal.vBool b => if b then "True".toList else "False".toList
  | PyVal.vInt n => Nat.toDigits 10 n

/-- `PROMPTS["CONFIRMATION"]` (main.py:234-253): a pair of formatting
lambdas over the collected `data` snapshot. -/
def prompts_CONFIRMATION (lang : List Char) (d : ConvData) : List Char :=
  if lang = "hindi".toList then
    ("कृपया पुष्टि करें:\n\n").toList ++
    ("विषय: ").toList ++ valRepr d.topic ++ ("\n").toList ++
    ("सब्जेक्ट: ").toList ++ valRepr d.subject ++ ("\n").toList ++
    ("कक्षा: ").toList ++ valRepr d.class_level ++ ("\n").toList ++
    ("सत्र अवधि: ").toList ++ valRepr d.session_duration ++ (" मिनट\n").toList ++
    ("सत्रों की संख्या: ").toList ++ valRepr d.num_sessions ++ ("\n\n").toList ++
    ("बनाने के लिए \x27हाँ\x27 कहें, या फिर से शुरू करने के लिए \x27नहीं\x27 कहें।").toList
  else
    ("Perfect! Please confirm:\n\n").toList ++
    ("Topic: ").toList ++ valRepr d.topic ++ ("\n").toList ++
    ("Subject: ").toList ++ valRepr d.subject ++ ("\n").toList ++
    ("Class: ").toList ++ valRepr d.class_level ++ ("\n").toList ++
    ("Session Duration: ").toList ++ valRepr d.session_duration ++ (" minutes\n").toList ++
    ("Number of Sessions: ").toList ++ valRepr d.num_sessions ++ ("\n\n").toList ++
    ("Say \x27Yes\x27 to generate, or \x27No\x27 to start over.").toList

/-- Result of one `voicemessage` dispatch after transcription: the
conversation state left in `conversation_states` (`none` when the entry is
deleted after a successful generation) and the texts emitted. -/
structure StepResult where
  state : Option ConvState
  responses : List (List Char)
deriving DecidableEq

/-- The message of the generation branch of the `CONFIRMATION` stage; the
external LLM / database calls that follow it, and their success or error
messages, are outside this pure model. -/
def generatingMsg : List Char :=
  ("Generating your complete lesson plan with worksheets. Please wait.").toList

/-- Stage dispatch of the `voicemessage` handler (main.py:1508-1688),
starting from the point where a non-empty transcript for an existing
conversation has been obtained.  Emitted texts are collected in order; the
generation branch is modelled up to its first emitted message (its
external LLM and database calls are opaque) with the state-map entry
deleted as in the source's success path. -/
def voicemessageStep (st : ConvState) (transcript : List Char) : StepResult :=
  let parsed := parse_user_response transcript st.stage st.language_mode
  if parsed.value = PyVal.vStr "RESTART".toList then
    let prev_lang := match st.language_mode with
      | some l => if l = [] then "english".toList else l
      | none => "english".toList
    { state := some { initialConvState with
        language_mode := some prev_lang,
        data := { defaultData with language := pyTitle prev_lang } }
      responses :=
        [if prev_lang = "english".toList then "Starting over...".toList
         else "फिर से शुरू कर रहे हैं...".toList,
         prompts_LANGUAGE_SELECTION "english".toList] }
  else if st.stage = "LANGUAGE_SELECTION".toList then
    if parsed.needs_clarification then
      { state := some st, responses := [prompts_LANGUAGE_SELECTION "english".toList] }
    else
      let lm := valAsStr parsed.value
      { state := some { st with
          language_mode := some lm
          stage := "TOPIC_COLLECTION".toList
          data := { st.data with language := pyTitle lm } }
        responses := [prompts_TOPIC_COLLECTION lm] }
  else if st.stage = "TOPIC_COLLECTION".toList then
    if parsed.needs_clarification then
      { state := some st
        responses := [if st.language_mode = some "english".toList then
            "Please tell me the lesson topic clearly.".toList
          else "कृपया विषय स्पष्ट रूप से बताएं।".toList] }
    else
      { state := some { st with
          stage := "SUBJECT_COLLECTION".toList
          data := { st.data with topic := parsed.value } }
        responses := [prompts_SUBJECT_COLLECTION (st.language_mode.getD [])] }
  else if st.stage = "SUBJECT_COLLECTION".toList then
    if parsed.needs_clarification then
      { state := some st
        responses := [if st.language_mode = some "english".toList then
            "Please specify the subject name.".toList
          else "कृपया विषय का नाम बताएं।".toList] }
    else
      { state := some { st with
          stage := "CLASS_COLLECTION".toList
          data := { st.data with subject := parsed.value } }
        responses := [prompts_CLASS_COLLECTION (st.language_mode.getD [])] }
  else if st.stage = "CLASS_COLLECTION".toList then
    if parsed.needs_clarification then
      { state := some st
        responses := [if st.language_mode = some "english".toList then
            "Please say a class number between 1 and 12.".toList
          else "कृपया 1 से 12 के बीच कक्षा संख्या बताएं।".toList] }
    else
      { state := some { st with
          stage := "SESSION_DURATION".toList
          data := { st.data with class_level := parsed.value } }
        responses := [prompts_SESSION_DURATION (st.language_mode.getD [])] }
  else if st.stage = "SESSION_DURATION".toList then
    if parsed.needs_clarification then
      { state := some st
        responses := [if st.language_mode = some "english".toList then
            "Please say duration between 15 and 90 minutes.".toList
          else "कृपया 15 से 90 मिनट के बीच अवधि बताएं।".toList] }
    else
      { state := some { st with
          stage := "NUM_SESSIONS".toList
          data := { st.data with session_duration := parsed.value } }
        responses := [prompts_NUM_SESSIONS (st.language_mode.getD [])] }
  else if st.stage = "NUM_SESSIONS".toList then
    if parsed.needs_clarification then
      { state := some st
        responses := [if st.language_mode = some "english".toList then
            "Please say number of sessions between 1 and 10.".toList
          else "कृपया 1 से 10 के बीच सत्रों की संख्या बताएं।".toList] }
    else
      { state := some { st with
          stage := "CONFIRMATION".toList
          data := { st.data with num_sessions := parsed.value } }
        responses := [prompts_CONFIRMATION (st.language_mode.getD [])
          { st.data with num_sessions := parsed.value }] }
  else if st.stage = "CONFIRMATION".toList then
    if parsed.needs_clarification then
      { state := some st
        responses := [if st.language_mode = some "english".toList then
            "Please say Yes or No.".toList
          else "कृपया हाँ या नहीं कहें।".toList] }
    else if parsed.value = PyVal.vBool false then
      let lang := match st.language_mode with
        | some l => if l = [] then "english".toList else l
        | none => "english".toList
      { state := some { initialConvState with
          language_mode := some lang
          stage := "TOPIC_COLLECTION".toList
          data := { defaultData with language := pyTitle lang } }
        responses := [prompts_TOPIC_COLLECTION lang] }
    else
      { state := none, responses := [generatingMsg] }
  else
    { state := some st, responses := [] }

/-- Preamble of the `textmessage` handler (main.py:1344-1367): field
normalisation (Python `or` defaults plus `strip`), clamping, and the
empty-input guard.  `emits_error` is true exactly when the handler emits
the terminal "Please enter a topic or lesson content." response and
returns without generating. -/
structure TextmsgPre where
  topic : List Char
  subject : List Char
  class_level : List Char
  language : List Char
  raw_content : List Char
  session_duration : Int
  num_sessions : Int
  emits_error : Bool
deriving DecidableEq

/-- Python `x or default` for an optional string field (`None` and the
empty string are falsy). -/
def pyOrStr (v : Option (List Char)) (dflt : List Char) : List Char :=
  match v with
  | none => dflt
  | some s => if s = [] then dflt else s

/-- Python `int(x or default)` for an optional integer field. -/
def pyOrInt (v : Option Int) (dflt : Int) : Int :=
  match v with
  | none => dflt
  | some n => if n = 0 then dflt else n

def textmessagePre (topicF subjectF classF langF contentF : Option (List Char))
    (durF numF : Option Int) : TextmsgPre :=
  let topic := pyStrip (pyOrStr topicF "Lesson Topic".toList)
  let subject := pyStrip (pyOrStr subjectF "Mathematics".toList)
  let class_level := pyStrip (pyOrStr classF "Class 2".toList)
  let language := pyStrip (pyOrStr langF "English".toList)
  let raw_content := pyStrip (pyOrStr contentF [])
  let session_duration := max 15 (min 90 (pyOrInt durF 40))
  let num_sessions := max 1 (min 10 (pyOrInt numF 4))
  { topic := topic, subject := subject, class_level := class_level
    language := language, raw_content := raw_content
    session_duration := session_duration, num_sessions := num_sessions
    emits_error := topic = [] && raw_content = [] }

/-- Case-insensitive character match (`re.IGNORECASE`, ASCII case folding;
the marker patterns are ASCII). -/
def lcEq (p c : Char) : Bool := p.toLower = c.toLower

/-- Consume a literal pattern case-insensitively from the front of the
input, returning the remainder on success. -/
def dropLit : List Char → List Char → Option (List Char)
  | [], cs => some cs
  | _ :: _, [] => none
  | p :: ps, c :: cs => if lcEq p c then dropLit ps cs else none

/-- One worksheet-boundary marker style of `parse_worksheets`
(main.py:471-476): a literal head, one or more whitespace characters, a
captured run of digits, and a literal tail. -/
structure MarkerPat where
  hd : List Char
  tl : List Char

/-- The four marker styles, in the priority order of the source:
`===WORKSHEET n===`, `---WORKSHEET n---`, `WORKSHEET n:`, `**WORKSHEET n**`. -/
def markerPats : List MarkerPat :=
  [⟨"===WORKSHEET".toList, "===".toList⟩,
   ⟨"---WORKSHEET".toList, "---".toList⟩,
   ⟨"WORKSHEET".toList, ":".toList⟩,
   ⟨"**WORKSHEET".toList, "**".toList⟩]

/-- Try to match one marker at the start of the input; on success return
the captured digits and the remainder after the marker.  Mirrors
`HEAD\s+(\d+)TAIL` with greedy `\s+` and `\d+` (equivalent to the regex
here because whitespace, digits and the tail literals are disjoint). -/
def matchMarkerAt (pat : MarkerPat) (cs : List Char) : Option (List Char × List Char) :=
  match dropLit pat.hd cs with
  | none => none
  | some cs1 =>
    let sp := cs1.takeWhile isPySpace
    if sp.isEmpty then none
    else
      let cs2 := cs1.dropWhile isPySpace
      let ds := cs2.takeWhile Char.isDigit
      if ds.isEmpty then none
      else
        match dropLit pat.tl (cs2.dropWhile Char.isDigit) with
        | none => none
        | some rest => some (ds, rest)

/-- Prepend a chunk onto the head of a chunk list. -/
def glueHead (p : List Char) : List (List Char) → List (List Char)
  | [] => [p]
  | h :: t => (p ++ h) :: t

/-- Fuelled scanner for `re.split(pattern, text)` with one capturing
group: leftmost, non-overlapping matches; the captured digits are kept
between the surrounding chunks.  Any fuel of at least the input length
gives the splitter's value (each step consumes at least one character). -/
def reSplitF (pat : MarkerPat) : Nat → List Char → List (List Char)
  | 0, cs => [cs]
  | _ + 1, [] => [[]]
  | f + 1, c :: cs =>
    match matchMarkerAt pat (c :: cs) with
    | some (ds, rest) => [] :: ds :: reSplitF pat f rest
    | none => glueHead [c] (reSplitF pat f cs)

/-- `re.split` of one marker pattern over the whole text. -/
def reSplit (pat : MarkerPat) (cs : List Char) : List (List Char) :=
  reSplitF pat cs.length cs

/-- One "end of worksheet" closing-marker style removed from worksheet
content (main.py:493-494): literal head, digits, literal tail (the heads
end in `"END WORKSHEET "` with a literal single space). -/
structure EndPat where
  hd : List Char
  tl : List Char

def endPat1 : EndPat := ⟨"===END WORKSHEET ".toList, "===".toList⟩

def endPat2 : EndPat := ⟨"---END WORKSHEET ".toList, "---".toList⟩

/-- Match one closing marker at the start of the input, returning the
remainder after it. -/
def matchEndAt (pat : EndPat) (cs : List Char) : Option (List Char) :=
  match dropLit pat.hd cs with
  | none => none
  | some cs1 =>
    let ds := cs1.takeWhile Char.isDigit
    if ds.isEmpty then none
    else dropLit pat.tl (cs1.dropWhile Char.isDigit)

/-- Fuelled scanner for `re.sub(pattern, "", text)`: every leftmost
non-overlapping match is removed.  Any fuel of at least the input length
gives the scanner's value. -/
def reSubF (pat : EndPat) : Nat → List Char → List Char
  | 0, cs => cs
  | _ + 1, [] => []
  | f + 1, c :: cs =>
    match matchEndAt pat (c :: cs) with
    | some rest => reSubF pat f rest
    | none => c :: reSubF pat f cs

/-- `re.sub(pattern, "", text)` over the whole text. -/
def reSub (pat : EndPat) (cs : List Char) : List Char := reSubF pat cs.length cs

/-- `text.split("\n\n")`: split on each leftmost non-overlapping
occurrence of a blank-line separator. -/
def splitNN : List Char → List (List Char)
  | [] => [[]]
  | [c] => [[c]]
  | c1 :: c2 :: rest =>
    if c1 = '\n' ∧ c2 = '\n' then [] :: splitNN rest
    else glueHead [c1] (splitNN (c2 :: rest))

/-- `sep.join(parts)`. -/
def joinSep (sep : List Char) : List (List Char) → List Char
  | [] => []
  | [x] => x
  | x :: y :: t => x ++ sep ++ joinSep sep (y :: t)

/-- `str.isdigit()` (ASCII digits): non-empty and all digits. -/
def pyIsDigit (s : List Char) : Bool := !s.isEmpty && s.all Char.isDigit

/-- A worksheet record as far as the verified properties are concerned:
its `number` and its raw `content`.  The source additionally derives
`title`, `objective`, `duration` and `sections` from the same content
block by independent regex searches; none of the verified claims mention
those fields and they do not feed back into `number` or `content`. -/
structure Worksheet where
  number : Nat
  content : List Char
deriving DecidableEq

/-- The content cleanup of the marker path (main.py:490-494): trim the
raw block, then delete every `===END WORKSHEET n===` and
`---END WORKSHEET n---` closing marker (no re-trim afterwards). -/
def cleanContent (b : List Char) : List Char :=
  reSub endPat2 (reSub endPat1 (pyStrip b))

/-- The `while` loop of `parse_worksheets` (main.py:486-522) over the
split result without its first element: consume (number, content) pairs,
ignoring a trailing unpaired element; `k` counts the records built so far
(the source's `len(worksheets)`). -/
def processPairs : List (List Char) → Nat → List Worksheet
  | a :: b :: rest, k =>
    let wsNum := pyStrip a
    { number := if pyIsDigit wsNum then digitsToNat wsNum else k + 1
      content := cleanContent b } :: processPairs rest (k + 1)
  | _, _ => []

/-- The per-chunk content rule of the fallback branch (main.py:541): the
joined chunk, or the entire text when the chunk strips to empty. -/
def fallbackContent (worksheet_text chunk_content : List Char) : List Char :=
  if (pyStrip chunk_content).isEmpty then worksheet_text else chunk_content

/-- The fallback branch of `parse_worksheets` (main.py:524-544): partition
the raw text into `num_sessions` chunk groups split on blank lines; a
group whose joined text strips to empty is replaced by the entire text. -/
def fallbackWorksheets (worksheet_text : List Char) (num_sessions : Nat) :
    List Worksheet :=
  let content_chunks := splitNN worksheet_text
  let chunk_size :=
    if content_chunks.length ≥ num_sessions then content_chunks.length / num_sessions
    else 1
  (List.range num_sessions).map (fun i =>
    let start_idx := i * chunk_size
    let end_idx := if i < num_sessions - 1 then start_idx + chunk_size
      else content_chunks.length
    { number := i + 1
      content := fallbackContent worksheet_text
        (joinSep "\n\n".toList ((content_chunks.drop start_idx).take (end_idx - start_idx))) })

/-- The pattern cascade of `parse_worksheets` (main.py:478-482): try each
marker style in order, keeping the first split with more than one piece;
when none splits, the loop leaves the last attempt's result. -/
def firstSplit : List MarkerPat → List Char → List (List Char)
  | [], text => [text]
  | [p], text => reSplit p text
  | p :: q :: ps, text =>
    if (reSplit p text).length > 1 then reSplit p text
    else firstSplit (q :: ps) text

/-- `parse_worksheets` (main.py:466-545) restricted to the `number` and
`content` fields of its records (see `Worksheet`).  The `topic` argument
of the source only feeds the synthesized titles and is dropped here. -/
def parse_worksheets (worksheet_text : List Char) (num_sessions : Nat) :
    List Worksheet :=
  let sections := firstSplit markerPats worksheet_text
  let worksheets := if sections.length > 1 then processPairs sections.tail 0 else []
  if worksheets.isEmpty then fallbackWorksheets worksheet_text num_sessions
  else worksheets

/-- `str.find(pat)`: index of the first occurrence of a substring
(`none` for the source's `-1`). -/
def findSub (pat : List Char) : List Char → Option Nat
  | [] => if pat.isEmpty then some 0 else none
  | c :: cs => if pat.isPrefixOf (c :: cs) then some 0 else (findSub pat cs).map (· + 1)

/-- `_extract_section` (main.py:637-644): everything after the first
`---SECTION_NAME---` marker up to the next line starting with `---`,
trimmed; empty when the marker is absent. -/
def _extract_section (full : List Char) (section_name : List Char) : List Char :=
  let marker := "---".toList ++ section_name ++ "---".toList
  match findSub marker full with
  | none => []
  | some k =>
    let after := full.drop (k + marker.length)
    match findSub "\n---".toList after with
    | none => pyStrip after
    | some j => pyStrip (after.take j)

/-- `str.splitlines()` (`\n`, `\r`, `\r\n` line boundaries; no trailing
empty line). -/
def pySplitLines : List Char → List (List Char)
  | [] => []
  | '\r' :: '\n' :: cs => [] :: pySplitLines cs
  | c :: cs =>
    if c = '\n' || c = '\r' then [] :: pySplitLines cs
    else glueHead [c] (pySplitLines cs)

/-- The per-line normalisation of `_lines_to_list` (main.py:647-658):
trim, drop empty lines, strip a leading bullet glyph or hyphen, strip a
`<digit>.` / `<digit>)` enumerator. -/
def lineItem (raw : List Char) : Option (List Char) :=
  let s := pyStrip raw
  if s.isEmpty then none
  else
    let s2 := s.dropWhile (fun c => c = '•' || c = '-' || c = ' ' || c = '\t')
    let s3 :=
      if s2.length > 2 && (s2.getD 0 ' ').isDigit
          && ((s2.getD 1 ' ') = '.' || (s2.getD 1 ' ') = ')') then
        pyStrip (s2.drop 2)
      else s2
    some s3

/-- `_lines_to_list` (main.py:646-658). -/
def _lines_to_list (block : List Char) : List (List Char) :=
  if block.isEmpty then [] else (pySplitLines block).filterMap lineItem

/-- One record of `parse_llm_to_sessions` (main.py:688-700).  The
`e_resources` slot is the constant empty list in the source and is
omitted. -/
structure LessonSession where
  number : Nat
  duration : List Char
  competency : List Char
  elo : List Char
  activities : List (List Char)
  resources_tlm : List Char
  worksheets : List Char
  assessment : List Char
deriving DecidableEq

/-- The local `pick` of `parse_llm_to_sessions` (main.py:684-685):
`lst[i % len(lst)]` with a fallback for an empty list. -/
def pick (lst : List (List Char)) (i : Nat) (fb : List Char) : List Char :=
  if lst.isEmpty then fb else lst.getD (i % lst.length) []

/-- `parse_llm_to_sessions` (main.py:670-705). -/
def parse_llm_to_sessions (formatted_text : List Char) (session_duration : Nat)
    (num_sessions : Nat) : List LessonSession :=
  let objectives := _extract_section formatted_text "LEARNING OBJECTIVES".toList
  let outcomes := _extract_section formatted_text "LEARNING OUTCOMES".toList
  let resources := _extract_section formatted_text "TEACHING AIDS/RESOURCES".toList
  let activities := _extract_section formatted_text "ACTIVITIES".toList
  let assessment := _extract_section formatted_text "ASSESSMENT".toList
  let homework := _extract_section formatted_text "HOMEWORK".toList
  let obj_list := _lines_to_list objectives
  let out_list := _lines_to_list outcomes
  let res_list := _lines_to_list resources
  let act_list := _lines_to_list activities
  let assess_list := _lines_to_list assessment
  let hw_list := _lines_to_list homework
  let act_n := _split_into_n act_list num_sessions
  let res_n := _split_into_n res_list num_sessions
  let assess_n := _split_into_n assess_list num_sessions
  (List.range num_sessions).map (fun i =>
    { number := i + 1
      duration := Nat.toDigits 10 session_duration ++ " mins".toList
      competency := pick obj_list i "Competency based on objectives".toList
      elo := pick out_list i "Expected learning outcome".toList
      activities := act_n.getD i []
      resources_tlm :=
        if res_n.getD i [] ≠ ["-".toList] then joinSep "; ".toList (res_n.getD i [])
        else "-".toList
      worksheets := "Worksheet ".toList ++ Nat.toDigits 10 (i + 1)
      assessment :=
        if assess_n.getD i [] ≠ ["-".toList] then joinSep "; ".toList (assess_n.getD i [])
        else if ¬ hw_list.isEmpty then joinSep "; ".toList hw_list
        else "-".toList })

/-! ### Lemmas about `_split_into_n` -/

theorem rr_foldl_length (n : Nat) (ps : List (Nat × List Char))
    (acc : List (List (List Char))) :
    (ps.foldl (fun bs p => bs.set (p.1 % n) (bs.getD (p.1 % n) [] ++ [p.2])) acc).length
      = acc.length := by
  induction ps generalizing acc with
  | nil => rfl
  | cons p ps ih => rw [List.foldl_cons, ih]; simp

theorem rr_foldl_getD (n b : Nat) (hb : b < n) (ps : List (Nat × List Char))
    (acc : List (List (List Char))) (hacc : acc.length = n) :
    (ps.foldl (fun bs p => bs.set (p.1 % n) (bs.getD (p.1 % n) [] ++ [p.2])) acc).getD b []
      = acc.getD b [] ++ ((ps.filter (fun p => p.1 % n = b)).map Prod.snd) := by
  induction ps generalizing acc with
  | nil => simp
  | cons p ps ih =>
    have hset : (acc.set (p.1 % n) (acc.getD (p.1 % n) [] ++ [p.2])).length = n := by
      simpa using hacc
    rw [List.foldl_cons, ih _ hset]
    by_cases hpb : p.1 % n = b
    · have hblt : b < acc.length := hacc ▸ hb
      have h1 : (acc.set (p.1 % n) (acc.getD (p.1 % n) [] ++ [p.2])).getD b []
          = acc.getD b [] ++ [p.2] := by
        subst hpb
        rw [List.getD_eq_getElem _ _ (by simpa using hblt)]
        rw [List.getElem_set_self (by simpa using hblt)]
      rw [h1, List.filter_cons_of_pos (by simpa using hpb)]
      simp
    · have hblt : b < acc.length := hacc ▸ hb
      have h1 : (acc.set (p.1 % n) (acc.getD (p.1 % n) [] ++ [p.2])).getD b []
          = acc.getD b [] := by
        rw [List.getD_eq_getElem _ _ (by simpa using hblt)]
        rw [List.getElem_set_ne hpb]
        rw [List.getD_eq_getElem _ _ hblt]
      rw [h1, List.filter_cons_of_neg (by simpa using hpb)]

theorem split_into_n_length (items : List (List Char)) (n : Nat) :
    (_split_into_n items n).length = n := by
  unfold _split_into_n
  by_cases hi : items.isEmpty
  · simp [hi]
  · have he : items.isEmpty = false := by simpa using hi
    rw [he]
    simp only [Bool.false_eq_true, if_false]
    rw [List.length_map, rr_foldl_length, List.length_replicate]

theorem split_into_n_getD (items : List (List Char)) (n b : Nat) (hb : b < n) :
    (_split_into_n items n).getD b [] =
      (if ((items.enum.filter (fun p => p.1 % n = b)).map Prod.snd).isEmpty
       then ["-".toList]
       else (items.enum.filter (fun p => p.1 % n = b)).map Prod.snd) := by
  by_cases hi : items.isEmpty
  · have : items = [] := List.isEmpty_iff.mp hi
    subst this
    simp [_split_into_n, List.getD_eq_getElem?_getD, List.getElem?_replicate, hb]
  · have he : items.isEmpty = false := by simpa using hi
    have hlen := rr_foldl_length n items.enum (List.replicate n ([] : List (List Char)))
    rw [List.length_replicate] at hlen
    have hgd := rr_foldl_getD n b hb items.enum
      (List.replicate n ([] : List (List Char))) (by simp)
    have hrep : (List.replicate n ([] : List (List Char))).getD b [] = [] := by
      simp [List.getD_eq_getElem?_getD, List.getElem?_replicate, hb]
    rw [hrep, List.nil_append] at hgd
    unfold _split_into_n
    rw [he]
    simp only [Bool.false_eq_true, if_false]
    rw [List.getD_eq_getElem _ _
      (by rw [List.length_map, rr_foldl_length, List.length_replicate]; exact hb)]
    rw [List.getElem_map]
    rw [← List.getD_eq_getElem _ ([] : List (List Char))
      (by rw [rr_foldl_length, List.length_replicate]; exact hb)]
    rw [hgd]

theorem split_into_n_getD_ne_nil (items : List (List Char)) (n i : Nat) (hi : i < n) :
    (_split_into_n items n).getD i [] ≠ [] := by
  rw [split_into_n_getD items n i hi]
  split <;> simp_all [List.isEmpty_iff]

/-- C6: `_split_into_n` returns exactly `n` buckets, with item `i` placed
in bucket `i mod n` in input order, empty buckets replaced by `["-"]`;
in particular on `["a","b","c","d","e"]` with `n = 4` it yields
`[["a","e"],["b"],["c"],["d"]]` and on `[]` with `n = 3` it yields
`[["-"],["-"],["-"]]`. -/
theorem claim_C6 :
    (∀ (items : List (List Char)) (n : Nat), 1 ≤ n →
      (_split_into_n items n).length = n ∧
      ∀ b, b < n →
        (_split_into_n items n).getD b [] =
          (if ((items.enum.filter (fun p => p.1 % n = b)).map Prod.snd).isEmpty
           then ["-".toList]
           else (items.enum.filter (fun p => p.1 % n = b)).map Prod.snd)) ∧
    _split_into_n ["a".toList, "b".toList, "c".toList, "d".toList, "e".toList] 4
      = [["a".toList, "e".toList], ["b".toList], ["c".toList], ["d".toList]] ∧
    _split_into_n [] 3 = [["-".toList], ["-".toList], ["-".toList]] := by
  refine ⟨fun items n _ => ⟨split_into_n_length items n,
    fun b hb => split_into_n_getD items n b hb⟩, by decide, by decide⟩

/-- Witness for C6 at a concrete input. -/
theorem claim_C6_witness :
    (1:Nat) ≤ 2 ∧ (_split_into_n ["x".toList] 2).length = 2 :=
  ⟨by decide, (claim_C6.1 ["x".toList] 2 (by decide)).1⟩

/-- C3: `parse_llm_to_sessions` always returns exactly `numSessions`
records, numbered `1..numSessions`, and every record's activities list is
non-empty. -/
theorem claim_C3 (text : List Char) (d n : Nat) (hn : 1 ≤ n) :
    (parse_llm_to_sessions text d n).length = n ∧
    (parse_llm_to_sessions text d n).map LessonSession.number
      = (List.range n).map (· + 1) ∧
    ∀ s ∈ parse_llm_to_sessions text d n, s.activities ≠ [] := by
  refine ⟨by simp [parse_llm_to_sessions], ?_, ?_⟩
  · simp only [parse_llm_to_sessions, List.map_map]
    rfl
  · intro s hs
    simp only [parse_llm_to_sessions, List.mem_map, List.mem_range] at hs
    obtain ⟨i, hi, rfl⟩ := hs
    exact split_into_n_getD_ne_nil _ n i hi

/-- Witness for C3 at a concrete input. -/
theorem claim_C3_witness :
    (1:Nat) ≤ 2 ∧ (parse_llm_to_sessions "x".toList 40 2).length = 2 :=
  ⟨by decide, (claim_C3 "x".toList 40 2 (by decide)).1⟩

/-! ### Lemmas about `parse_worksheets` on the fallback path -/

theorem parse_worksheets_fallback (text : List Char) (n : Nat)
    (h : ∀ p ∈ markerPats, (reSplit p text).length ≤ 1) :
    parse_worksheets text n = fallbackWorksheets text n := by
  have h1 := h ⟨"===WORKSHEET".toList, "===".toList⟩ (by simp [markerPats])
  have h2 := h ⟨"---WORKSHEET".toList, "---".toList⟩ (by simp [markerPats])
  have h3 := h ⟨"WORKSHEET".toList, ":".toList⟩ (by simp [markerPats])
  have h4 := h ⟨"**WORKSHEET".toList, "**".toList⟩ (by simp [markerPats])
  have n1 : ¬ 1 < (reSplit ⟨"===WORKSHEET".toList, "===".toList⟩ text).length := by omega
  have n2 : ¬ 1 < (reSplit ⟨"---WORKSHEET".toList, "---".toList⟩ text).length := by omega
  have n3 : ¬ 1 < (reSplit ⟨"WORKSHEET".toList, ":".toList⟩ text).length := by omega
  have n4 : ¬ 1 < (reSplit ⟨"**WORKSHEET".toList, "**".toList⟩ text).length := by omega
  have hfs : firstSplit markerPats text
      = reSplit ⟨"**WORKSHEET".toList, "**".toList⟩ text := by
    unfold markerPats
    simp only [firstSplit, if_neg n1, if_neg n2, if_neg n3]
  simp only [parse_worksheets]
  rw [hfs]
  rw [if_neg n4]
  simp

/-- C1: on the fallback path (no marker style splits the text), and for
every `expectedCount ≥ 1`, `parse_worksheets` returns exactly
`expectedCount` records, numbered `1..expectedCount` in order. -/
theorem claim_C1 (text : List Char) (n : Nat) (hn : 1 ≤ n)
    (h : ∀ p ∈ markerPats, (reSplit p text).length ≤ 1) :
    (parse_worksheets text n).length = n ∧
    (parse_worksheets text n).map Worksheet.number = (List.range n).map (· + 1) := by
  rw [parse_worksheets_fallback text n h]
  refine ⟨by simp [fallbackWorksheets], ?_⟩
  simp only [fallbackWorksheets, List.map_map]
  rfl

/-- Witness for C1 at a concrete input. -/
theorem claim_C1_witness :
    ((1:Nat) ≤ 3 ∧ ∀ p ∈ markerPats, (reSplit p "hello world".toList).length ≤ 1) ∧
    (parse_worksheets "hello world".toList 3).length = 3 :=
  ⟨⟨by decide, by decide⟩,
   (claim_C1 "hello world".toList 3 (by decide) (by decide)).1⟩

theorem fallbackContent_ne_nil (t cc : List Char) (ht : t ≠ []) :
    fallbackContent t cc ≠ [] := by
  unfold fallbackContent
  split
  · exact ht
  · next hne =>
    intro hcc
    rw [hcc] at hne
    simp [pyStrip] at hne

/-- C4 counterexample: on the empty input text the single fallback record
has empty raw `content` (`parse_worksheets "" topic 1` yields one record
whose content is `""`), so it is not the case that every returned record
has non-empty content for every input text. -/
theorem claim_C4_cex :
    ¬ (∀ w ∈ parse_worksheets ([] : List Char) 1, w.content ≠ []) := by
  decide

/-- C4 amended: on the fallback path (no marker style splits the text),
every returned worksheet record has non-empty raw `content` provided the
input text itself is non-empty. -/
theorem claim_C4_amended (text : List Char) (n : Nat) (ht : text ≠ [])
    (h : ∀ p ∈ markerPats, (reSplit p text).length ≤ 1) :
    ∀ w ∈ parse_worksheets text n, w.content ≠ [] := by
  rw [parse_worksheets_fallback text n h]
  intro w hw
  simp only [fallbackWorksheets, List.mem_map, List.mem_range] at hw
  obtain ⟨i, _, rfl⟩ := hw
  exact fallbackContent_ne_nil _ _ ht

/-- Witness for C4 (amended) at a concrete input. -/
theorem claim_C4_amended_witness :
    ("ab".toList ≠ [] ∧ ∀ p ∈ markerPats, (reSplit p "ab".toList).length ≤ 1) ∧
    ∀ w ∈ parse_worksheets "ab".toList 2, w.content ≠ [] :=
  ⟨⟨by decide, by decide⟩, claim_C4_amended "ab".toList 2 (by decide) (by decide)⟩

/-! ### The textmessage empty-input guard (C9) -/

/-- C9: the source intends a terminal error when both topic and content
are missing or empty (main.py:1361-1367), but the defaulting expression
`(data.get("topic") or "Lesson Topic")` substitutes a non-empty default
topic first, so for a missing or empty topic with empty content the guard
is not taken and generation proceeds with topic "Lesson Topic"; the error
branch is only reachable for a whitespace-only (non-empty) topic field. -/
theorem claim_C9_bug :
    (textmessagePre none none none none none none none).emits_error = false ∧
    (textmessagePre none none none none none none none).topic = "Lesson Topic".toList ∧
    (textmessagePre (some []) none none none (some []) none none).emits_error = false ∧
    (textmessagePre (some " ".toList) none none none (some []) none none).emits_error
      = true := by
  decide

/-! ### CONFIRMATION-stage keyword precedence (C10) -/

/-- C10 counterexample: the utterance "yes, restart" contains the
affirmative keyword "yes", yet `parse_user_response` at the CONFIRMATION
stage returns the RESTART sentinel, not the boolean True — the restart
command check precedes the affirmative keyword check. -/
theorem claim_C10_cex :
    (yes_words.any (fun w => strIn w (pyStrip (pyLower "yes, restart".toList)))) = true ∧
    parse_user_response "yes, restart".toList "CONFIRMATION".toList none
      ≠ ⟨PyVal.vBool true, false⟩ ∧
    parse_user_response "yes, restart".toList "CONFIRMATION".toList none
      = ⟨PyVal.vStr "RESTART".toList, false⟩ := by
  decide

/-- C10 amended: at the CONFIRMATION stage, for every utterance whose
lowered, stripped text contains no restart command and contains at least
one affirmative keyword, `parse_user_response` returns value True with no
clarification needed — even when a negative keyword is also present. -/
theorem claim_C10_amended (t : List Char) (lm : Option (List Char))
    (hres : restartCmds.any (fun cmd => strIn cmd (pyStrip (pyLower t))) = false)
    (hyes : yes_words.any (fun w => strIn w (pyStrip (pyLower t))) = true) :
    parse_user_response t "CONFIRMATION".toList lm = ⟨PyVal.vBool true, false⟩ := by
  simp only [parse_user_response, hres, hyes, Bool.false_eq_true, if_false, if_true]
  simp +decide

/-- Witness for C10 (amended): "yes wrong" contains both an affirmative
and a negative keyword and no restart command. -/
theorem claim_C10_amended_witness :
    (restartCmds.any (fun cmd => strIn cmd (pyStrip (pyLower "yes wrong".toList))) = false ∧
     yes_words.any (fun w => strIn w (pyStrip (pyLower "yes wrong".toList))) = true) ∧
    parse_user_response "yes wrong".toList "CONFIRMATION".toList none
      = ⟨PyVal.vBool true, false⟩ :=
  ⟨⟨by decide, by decide⟩, claim_C10_amended "yes wrong".toList none (by decide) (by decide)⟩

/-! ### CONFIRMATION-stage rejection (C8) -/

/-- C8: at the CONFIRMATION stage, an utterance interpreted as the
negative value resets all collected fields to their defaults, preserves
the established (non-empty) languageMode together with its title-cased
`language` field, and sets the stage to TOPIC_COLLECTION. -/
theorem claim_C8 (st : ConvState) (t l : List Char)
    (hstage : st.stage = "CONFIRMATION".toList)
    (hlm : st.language_mode = some l) (hl : l ≠ [])
    (hparse : parse_user_response t st.stage st.language_mode
      = ⟨PyVal.vBool false, false⟩) :
    voicemessageStep st t =
      ⟨some { stage := "TOPIC_COLLECTION".toList
              language_mode := some l
              data := { defaultData with language := pyTitle l } },
       [prompts_TOPIC_COLLECTION l]⟩ := by
  rw [hstage, hlm] at hparse
  simp only [voicemessageStep, hstage, hlm, hparse]
  simp [initialConvState, hl]

/-- Witness for C8 at a concrete state and utterance. -/
theorem claim_C8_witness :
    voicemessageStep
        ⟨"CONFIRMATION".toList, some "hindi".toList,
         { defaultData with topic := PyVal.vStr "Fractions".toList }⟩
        "no".toList =
      ⟨some { stage := "TOPIC_COLLECTION".toList
              language_mode := some "hindi".toList
              data := { defaultData with language := pyTitle "hindi".toList } },
       [prompts_TOPIC_COLLECTION "hindi".toList]⟩ :=
  claim_C8 _ "no".toList "hindi".toList rfl rfl (by decide) (by decide)

/-! ### Clarification keeps the stage (C5) -/

/-- The defined stage sequence of the dialogue machine (spec §4.1,
main.py:1534-1588). -/
def stageSeq : List (List Char) :=
  ["LANGUAGE_SELECTION".toList, "TOPIC_COLLECTION".toList,
   "SUBJECT_COLLECTION".toList, "CLASS_COLLECTION".toList,
   "SESSION_DURATION".toList, "NUM_SESSIONS".toList, "CONFIRMATION".toList]

/-- A result flagged as needing clarification is never the RESTART
sentinel: every clarification-flagged return carries `None` as its value,
except the TOPIC_COLLECTION branch, whose value is then shorter than 3
characters and hence not the 7-character string "RESTART". -/
theorem parse_needs_value_ne_restart (t stage : List Char) (lm : Option (List Char))
    (h : (parse_user_response t stage lm).needs_clarification = true) :
    (parse_user_response t stage lm).value ≠ PyVal.vStr "RESTART".toList := by
  simp only [parse_user_response] at h ⊢
  by_cases c0 : (restartCmds.any fun cmd => strIn cmd (pyStrip (pyLower t))) = true
  · rw [if_pos c0] at h
    exact absurd h (by simp)
  · rw [if_neg c0] at h ⊢
    by_cases c1 : stage = "LANGUAGE_SELECTION".toList
    · rw [if_pos c1] at h ⊢
      split_ifs at h ⊢ <;> simp_all
    · rw [if_neg c1] at h ⊢
      by_cases c2 : stage = "TOPIC_COLLECTION".toList
      · rw [if_pos c2] at h ⊢
        intro he
        injection he with he'
        rw [he'] at h
        simp at h
      · rw [if_neg c2] at h ⊢
        by_cases c3 : stage = "SUBJECT_COLLECTION".toList
        · rw [if_pos c3] at h ⊢
          rcases hf : List.find? (fun kv => strIn kv.1 (pyStrip (pyLower t))) subjects_map
            with _ | kv
          · rw [hf] at h ⊢
            split_ifs at h ⊢ <;> simp_all
          · rw [hf] at h
            exact absurd h (by simp)
        · rw [if_neg c3] at h ⊢
          by_cases c4 : stage = "CLASS_COLLECTION".toList
          · rw [if_pos c4] at h ⊢
            rcases hd : firstDigitRun t with _ | d
            · simp
            · dsimp only at h ⊢
              split_ifs at h ⊢ <;> simp_all
          · rw [if_neg c4] at h ⊢
            by_cases c5 : stage = "SESSION_DURATION".toList
            · rw [if_pos c5] at h ⊢
              rcases hd : firstDigitRun t with _ | d
              · simp
              · dsimp only at h ⊢
                split_ifs at h ⊢ <;> simp_all
            · rw [if_neg c5] at h ⊢
              by_cases c6 : stage = "NUM_SESSIONS".toList
              · rw [if_pos c6] at h ⊢
                rcases hd : firstDigitRun t with _ | d
                · simp
                · dsimp only at h ⊢
                  split_ifs at h ⊢ <;> simp_all
              · rw [if_neg c6] at h ⊢
                by_cases c7 : stage = "CONFIRMATION".toList
                · rw [if_pos c7] at h ⊢
                  split_ifs at h ⊢ <;> simp_all
                · rw [if_neg c7] at h ⊢
                  simp

/-- C5: for every stage in the defined sequence and every utterance that
the interpreter classifies as needing clarification, the `voicemessage`
dispatch leaves the conversation state's stage unchanged and emits exactly
one non-empty prompt. -/
theorem claim_C5 (st : ConvState) (t : List Char)
    (hstage : st.stage ∈ stageSeq)
    (h : (parse_user_response t st.stage st.language_mode).needs_clarification = true) :
    ∃ s' p, (voicemessageStep st t).state = some s' ∧ s'.stage = st.stage ∧
      (voicemessageStep st t).responses = [p] ∧ p ≠ [] := by
  have hnr := parse_needs_value_ne_restart t st.stage st.language_mode h
  simp only [stageSeq, List.mem_cons, List.not_mem_nil, or_false] at hstage
  rcases hstage with h1 | h1 | h1 | h1 | h1 | h1 | h1 <;>
    rw [h1] at h hnr <;>
    simp +decide only [voicemessageStep, h1, hnr, h, if_true, if_false] <;>
    exact ⟨st, _, rfl, h1, rfl, by first | decide | (split <;> decide)⟩

/-- Witness for C5 at a concrete state and utterance ("zz" cannot be
interpreted at the CLASS_COLLECTION stage). -/
theorem claim_C5_witness :
    (("CLASS_COLLECTION".toList ∈ stageSeq) ∧
     (parse_user_response "zz".toList "CLASS_COLLECTION".toList
        (some "english".toList)).needs_clarification = true) ∧
    ∃ s' p,
      (voicemessageStep ⟨"CLASS_COLLECTION".toList, some "english".toList, defaultData⟩
        "zz".toList).state = some s' ∧
      s'.stage = "CLASS_COLLECTION".toList ∧
      (voicemessageStep ⟨"CLASS_COLLECTION".toList, some "english".toList, defaultData⟩
        "zz".toList).responses = [p] ∧ p ≠ [] :=
  ⟨⟨by decide, by decide⟩,
   claim_C5 ⟨"CLASS_COLLECTION".toList, some "english".toList, defaultData⟩
     "zz".toList (by decide) (by decide)⟩

/-! ### Scanner lemmas for the marker-path of `parse_worksheets` (C2) -/

theorem lcEq_self (c : Char) : lcEq c c = true := by simp [lcEq]

theorem dropLit_length {p cs r : List Char} (h : dropLit p cs = some r) :
    r.length + p.length = cs.length := by
  induction p generalizing cs with
  | nil =>
    simp only [dropLit, Option.some.injEq] at h
    simp [← h]
  | cons a p ih =>
    cases cs with
    | nil => simp [dropLit] at h
    | cons c cs =>
      simp only [dropLit] at h
      split_ifs at h
      have := ih h
      simp only [List.length_cons]
      omega

theorem dropLit_self_append (p r : List Char) : dropLit p (p ++ r) = some r := by
  induction p with
  | nil => rfl
  | cons a p ih => simp [dropLit, lcEq_self, ih]

theorem matchMarkerAt_some_length {pat : MarkerPat} {cs ds rest : List Char}
    (h : matchMarkerAt pat cs = some (ds, rest)) : rest.length < cs.length := by
  unfold matchMarkerAt at h
  rcases h1 : dropLit pat.hd cs with _ | cs1
  · rw [h1] at h
    exact Option.noConfusion h
  · rw [h1] at h
    dsimp only at h
    have hc1 : cs1.length ≤ cs.length := by have := dropLit_length h1; omega
    split_ifs at h with hsp hds
    rcases h2 : dropLit pat.tl (List.dropWhile Char.isDigit
        (List.dropWhile isPySpace cs1)) with _ | rest2
    · rw [h2] at h; exact absurd h (by simp)
    · rw [h2] at h
      simp only [Option.some.injEq, Prod.mk.injEq] at h
      obtain ⟨rfl, rfl⟩ := h
      have e1 : (List.takeWhile isPySpace cs1).length
          + (List.dropWhile isPySpace cs1).length = cs1.length := by
        rw [← List.length_append, List.takeWhile_append_dropWhile]
      have hsp' : (List.takeWhile isPySpace cs1).length ≥ 1 := by
        rcases hq : List.takeWhile isPySpace cs1 with _ | ⟨a, q⟩
        · rw [hq] at hsp; simp at hsp
        · simp
      set cs2 := List.dropWhile isPySpace cs1 with hcs2
      have e2 : (List.takeWhile Char.isDigit cs2).length
          + (List.dropWhile Char.isDigit cs2).length = cs2.length := by
        rw [← List.length_append, List.takeWhile_append_dropWhile]
      have hds' : (List.takeWhile Char.isDigit cs2).length ≥ 1 := by
        rcases hq : List.takeWhile Char.isDigit cs2 with _ | ⟨a, q⟩
        · rw [hq] at hds; simp at hds
        · simp
      have := dropLit_length h2
      omega

theorem reSplitF_fuel (pat : MarkerPat) (f g : Nat) (cs : List Char)
    (hf : cs.length ≤ f) (hg : cs.length ≤ g) :
    reSplitF pat f cs = reSplitF pat g cs := by
  induction f generalizing g cs with
  | zero =>
    have : cs = [] := by
      cases cs
      · rfl
      · simp at hf
    subst this
    cases g <;> rfl
  | succ f ih =>
    cases cs with
    | nil => cases g <;> rfl
    | cons c cs =>
      cases g with
      | zero => simp at hg
      | succ g =>
        rcases hm : matchMarkerAt pat (c :: cs) with _ | ⟨ds, rest⟩
        · simp only [reSplitF, hm]
          rw [ih g cs (by simpa using hf) (by simpa using hg)]
        · have hr := matchMarkerAt_some_length hm
          simp only [List.length_cons] at hr hf hg
          simp only [reSplitF, hm]
          rw [ih g rest (by omega) (by omega)]

theorem matchMarkerAt_none_of_head {pat : MarkerPat} {hc : Char} {hr : List Char}
    (hpat : pat.hd = hc :: hr) {c : Char} (h : lcEq hc c = false) (cs : List Char) :
    matchMarkerAt pat (c :: cs) = none := by
  unfold matchMarkerAt
  rw [hpat]
  simp [dropLit, h]

theorem glueHead_ne_nil (p : List Char) (l : List (List Char)) :
    glueHead p l ≠ [] := by
  cases l <;> simp [glueHead]

theorem reSplitF_ne_nil (pat : MarkerPat) (f : Nat) (cs : List Char) :
    reSplitF pat f cs ≠ [] := by
  cases f with
  | zero => simp [reSplitF]
  | succ f =>
    cases cs with
    | nil => simp [reSplitF]
    | cons c cs =>
      rcases hm : matchMarkerAt pat (c :: cs) with _ | ⟨ds, rest⟩ <;>
        simp [reSplitF, hm, glueHead_ne_nil]

/-- Decides that no marker-pattern match begins at any position inside
`s` when the text continues with `q`: a match may inspect the
continuation (a partial marker at the end of `s` completed by `q` counts
as a match), but must start inside `s`. -/
def noMarkerStartIn (pat : MarkerPat) : List Char → List Char → Bool
  | [], _ => true
  | c :: cs, q => (matchMarkerAt pat ((c :: cs) ++ q)).isNone && noMarkerStartIn pat cs q

/-- Scanning a prefix inside which no match starts conses that prefix
onto the head chunk of the remaining split. -/
theorem reSplitF_skip (pat : MarkerPat) (p q : List Char)
    (hp : noMarkerStartIn pat p q = true) (f : Nat) (hf : p.length + q.length ≤ f) :
    reSplitF pat f (p ++ q) = glueHead p (reSplitF pat (f - p.length) q) := by
  induction p generalizing f with
  | nil =>
    simp only [List.nil_append, List.length_nil, Nat.sub_zero]
    rcases hs : reSplitF pat f q with _ | ⟨h0, t0⟩
    · exact absurd hs (reSplitF_ne_nil pat f q)
    · simp [glueHead]
  | cons a p ih =>
    simp only [noMarkerStartIn, Bool.and_eq_true, Option.isNone_iff_eq_none,
      List.cons_append] at hp
    obtain ⟨hnm, hp2⟩ := hp
    cases f with
    | zero => simp at hf
    | succ f =>
      have step : reSplitF pat (f + 1) ((a :: p) ++ q)
          = glueHead [a] (reSplitF pat f (p ++ q)) := by
        simp only [List.cons_append, reSplitF, hnm, List.append_eq]
      rw [step, ih hp2 f (by simp at hf; omega)]
      simp only [List.length_cons, Nat.succ_sub_succ_eq_sub]
      rcases reSplitF pat (f - p.length) q with _ | ⟨h0, t0⟩ <;> simp [glueHead]

theorem isPySpace_false_of_isDigit (c : Char) (h : c.isDigit = true) :
    isPySpace c = false := by
  cases hc : isPySpace c with
  | false => rfl
  | true =>
    exfalso
    simp only [isPySpace, Bool.or_eq_true, decide_eq_true_eq] at hc
    rcases hc with ((((rfl | rfl) | rfl) | rfl) | rfl) | rfl <;> exact absurd h (by decide)

/-- A single well-formed worksheet marker `===WORKSHEET d===`. -/
def wsMarker (d : Char) : List Char :=
  "===WORKSHEET ".toList ++ [d] ++ "===".toList

theorem matchMarkerAt_wsMarker (d : Char) (hdig : d.isDigit = true)
    (rest : List Char) :
    matchMarkerAt ⟨"===WORKSHEET".toList, "===".toList⟩ (wsMarker d ++ rest)
      = some ([d], rest) := by
  have hns : isPySpace d = false := isPySpace_false_of_isDigit d hdig
  simp +decide [matchMarkerAt, wsMarker, dropLit, lcEq, hns, hdig]

/-- A sequence of well-formed worksheet blocks: each block is a
`===WORKSHEET d===` marker followed by its content. -/
def mkBlocks : List (Char × List Char) → List Char
  | [] => []
  | (d, c) :: rest => wsMarker d ++ c ++ mkBlocks rest

/-- The pieces a well-formed block sequence splits into: the captured
digit then the content of each block, in order. -/
def blockPieces : List (Char × List Char) → List (List Char)
  | [] => []
  | (d, c) :: rest => [d] :: c :: blockPieces rest

theorem reSplitF_nil (pat : MarkerPat) (f : Nat) : reSplitF pat f [] = [[]] := by
  cases f <;> rfl

theorem reSplitF_cons_match (pat : MarkerPat) (f : Nat) (c : Char) (cs ds rest : List Char)
    (hm : matchMarkerAt pat (c :: cs) = some (ds, rest)) :
    reSplitF pat (f + 1) (c :: cs) = [] :: ds :: reSplitF pat f rest := by
  simp [reSplitF, hm]

theorem reSplitF_marker_step (d : Char) (hdig : d.isDigit = true) (X : List Char)
    (f : Nat) :
    reSplitF ⟨"===WORKSHEET".toList, "===".toList⟩ (f + 1) (wsMarker d ++ X)
      = [] :: [d] :: reSplitF ⟨"===WORKSHEET".toList, "===".toList⟩ f X := by
  have hm := matchMarkerAt_wsMarker d hdig X
  have hform : wsMarker d ++ X
      = '=' :: ("==WORKSHEET ".toList ++ [d] ++ "===".toList ++ X) := by
    simp [wsMarker]
  rw [hform] at hm ⊢
  exact reSplitF_cons_match _ f _ _ _ _ hm

/-- A block list is well formed: every block number is a single digit
character and no marker-pattern match begins inside any block's content
(given the text that follows it) — the block headers are the only places
where the marker pattern matches in the assembled text.  Contents may
freely contain `=`, `-`, closing `END WORKSHEET` markers, and any other
text that does not start a `===WORKSHEET\s+\d+===` match. -/
def blocksOk : List (Char × List Char) → Bool
  | [] => true
  | (d, c) :: rest =>
    d.isDigit
      && noMarkerStartIn ⟨"===WORKSHEET".toList, "===".toList⟩ c (mkBlocks rest)
      && blocksOk rest

theorem reSplitF_blocks (bs : List (Char × List Char)) (hbs : bs ≠ [])
    (hok : blocksOk bs = true) (f : Nat)
    (hf : (mkBlocks bs).length ≤ f) :
    reSplitF ⟨"===WORKSHEET".toList, "===".toList⟩ f (mkBlocks bs)
      = [] :: blockPieces bs := by
  induction bs generalizing f with
  | nil => exact absurd rfl hbs
  | cons b rest ih =>
    obtain ⟨d, c⟩ := b
    simp only [blocksOk, Bool.and_eq_true] at hok
    obtain ⟨⟨hd1, hc1⟩, hrestok⟩ := hok
    have hlen : (mkBlocks ((d, c) :: rest)).length
        = 17 + c.length + (mkBlocks rest).length := by
      simp [mkBlocks, wsMarker]
      omega
    cases f with
    | zero => rw [hlen] at hf; omega
    | succ f =>
      have hassoc : mkBlocks ((d, c) :: rest) = wsMarker d ++ (c ++ mkBlocks rest) := by
        simp [mkBlocks]
      rw [hassoc, reSplitF_marker_step d hd1 (c ++ mkBlocks rest) f]
      rw [reSplitF_skip _ c (mkBlocks rest) hc1 f (by rw [hlen] at hf; omega)]
      rcases hrest : rest with _ | ⟨b2, rest2⟩
      · simp [mkBlocks, reSplitF_nil, glueHead, blockPieces]
      · rw [← hrest]
        have hrne : rest ≠ [] := by rw [hrest]; simp
        rw [ih hrne hrestok (f - c.length) (by rw [hlen] at hf; omega)]
        simp [glueHead, blockPieces]

/-- The split of a well-formed block text by the first marker style. -/
theorem reSplit_blocks (bs : List (Char × List Char)) (hbs : bs ≠ [])
    (hok : blocksOk bs = true) :
    reSplit ⟨"===WORKSHEET".toList, "===".toList⟩ (mkBlocks bs)
      = [] :: blockPieces bs :=
  reSplitF_blocks bs hbs hok (mkBlocks bs).length (Nat.le_refl _)

theorem mem_dropWhile_of_not {α : Type} (p : α → Bool) {c : α} {s : List α}
    (hc : c ∈ s) (hf : p c = false) : c ∈ List.dropWhile p s := by
  induction s with
  | nil => simp at hc
  | cons a s ih =>
    by_cases ha : p a = true
    · rw [List.dropWhile_cons_of_pos ha]
      rcases List.mem_cons.mp hc with rfl | hmem
      · rw [hf] at ha; exact absurd ha (by simp)
      · exact ih hmem
    · rw [List.dropWhile_cons_of_neg ha]
      exact hc

theorem mem_pyStrip {c : Char} {s : List Char} (h : c ∈ pyStrip s) : c ∈ s := by
  unfold pyStrip at h
  rw [List.mem_reverse] at h
  have h1 := (List.dropWhile_sublist (l := (s.dropWhile isPySpace).reverse)
    (p := isPySpace)).subset h
  rw [List.mem_reverse] at h1
  exact (List.dropWhile_sublist (l := s) (p := isPySpace)).subset h1

theorem pyStrip_ne_nil {s : List Char} (h : ∃ c ∈ s, isPySpace c = false) :
    pyStrip s ≠ [] := by
  obtain ⟨c, hc, hcf⟩ := h
  unfold pyStrip
  intro he
  rw [List.reverse_eq_nil_iff, List.dropWhile_eq_nil_iff] at he
  have hcd : c ∈ List.dropWhile isPySpace s := mem_dropWhile_of_not _ hc hcf
  have := he c (by simpa using hcd)
  rw [hcf] at this
  exact absurd this (by simp)

theorem matchEndAt_none_of_head {pat : EndPat} {hc0 : Char} {hr : List Char}
    (hpat : pat.hd = hc0 :: hr) {c : Char} (h : lcEq hc0 c = false) (cs : List Char) :
    matchEndAt pat (c :: cs) = none := by
  unfold matchEndAt
  rw [hpat]
  simp [dropLit, h]

theorem reSubF_id (pat : EndPat) (hc0 : Char) (hr : List Char)
    (hpat : pat.hd = hc0 :: hr) (cs : List Char)
    (h : ∀ c ∈ cs, lcEq hc0 c = false) (f : Nat) (hf : cs.length ≤ f) :
    reSubF pat f cs = cs := by
  induction cs generalizing f with
  | nil => cases f <;> rfl
  | cons c cs ih =>
    cases f with
    | zero => simp at hf
    | succ f =>
      have hm := matchEndAt_none_of_head hpat (h c (by simp)) cs
      simp only [reSubF, hm]
      rw [ih (fun x hx => h x (by simp [hx])) f (by simp at hf; omega)]

theorem reSub_id (pat : EndPat) (hc0 : Char) (hr : List Char)
    (hpat : pat.hd = hc0 :: hr) (cs : List Char)
    (h : ∀ c ∈ cs, lcEq hc0 c = false) : reSub pat cs = cs :=
  reSubF_id pat hc0 hr hpat cs h cs.length (Nat.le_refl _)

/-- C2: for a text made of exactly four well-formed `===WORKSHEET n===`
blocks (n = 1..4: the four block headers are the only places in the text
where the marker pattern `===WORKSHEET\s+\d+===` matches, and each
block's raw content still holds text after trimming and removing closing
`END WORKSHEET` markers — the source's own cleanup), `parse_worksheets`
returns exactly 4 records whose `number` fields are 1,2,3,4 in input
order, each with non-empty `content`, whatever `expectedCount` is passed.
Contents may freely contain `=` and `-` characters, hyphen bullets, and
`===END WORKSHEET n===` / `---END WORKSHEET n---` closing markers. -/
theorem claim_C2 (c1 c2 c3 c4 : List Char) (n : Nat)
    (hok : blocksOk [('1', c1), ('2', c2), ('3', c3), ('4', c4)] = true)
    (h1 : cleanContent c1 ≠ []) (h2 : cleanContent c2 ≠ [])
    (h3 : cleanContent c3 ≠ []) (h4 : cleanContent c4 ≠ []) :
    parse_worksheets (mkBlocks [('1', c1), ('2', c2), ('3', c3), ('4', c4)]) n
      = [⟨1, cleanContent c1⟩, ⟨2, cleanContent c2⟩,
         ⟨3, cleanContent c3⟩, ⟨4, cleanContent c4⟩] ∧
    (parse_worksheets (mkBlocks [('1', c1), ('2', c2), ('3', c3), ('4', c4)]) n).map
        Worksheet.number = [1, 2, 3, 4] ∧
    ∀ w ∈ parse_worksheets (mkBlocks [('1', c1), ('2', c2), ('3', c3), ('4', c4)]) n,
      w.content ≠ [] := by
  have hsplit := reSplit_blocks [('1', c1), ('2', c2), ('3', c3), ('4', c4)]
    (by simp) hok
  have hbp : blockPieces [('1', c1), ('2', c2), ('3', c3), ('4', c4)]
      = [['1'], c1, ['2'], c2, ['3'], c3, ['4'], c4] := rfl
  rw [hbp] at hsplit
  have hfs : firstSplit markerPats (mkBlocks [('1', c1), ('2', c2), ('3', c3), ('4', c4)])
      = [[], ['1'], c1, ['2'], c2, ['3'], c3, ['4'], c4] := by
    unfold markerPats firstSplit
    rw [if_pos (by rw [hsplit]; simp)]
    exact hsplit
  have key : parse_worksheets (mkBlocks [('1', c1), ('2', c2), ('3', c3), ('4', c4)]) n
      = [⟨1, cleanContent c1⟩, ⟨2, cleanContent c2⟩,
         ⟨3, cleanContent c3⟩, ⟨4, cleanContent c4⟩] := by
    simp only [parse_worksheets, hfs]
    have hlen9 : (1 : Nat)
        < ([[], ['1'], c1, ['2'], c2, ['3'], c3, ['4'], c4] : List (List Char)).length := by
      simp
    rw [if_pos hlen9]
    have hpp : processPairs [['1'], c1, ['2'], c2, ['3'], c3, ['4'], c4] 0
        = [⟨1, cleanContent c1⟩, ⟨2, cleanContent c2⟩,
           ⟨3, cleanContent c3⟩, ⟨4, cleanContent c4⟩] := by
      simp only [processPairs]
      simp +decide
    simp only [List.tail_cons, hpp]
    rw [if_neg (by simp)]
  rw [key]
  refine ⟨rfl, by simp, ?_⟩
  intro w hw
  simp only [List.mem_cons, List.not_mem_nil, or_false] at hw
  rcases hw with rfl | rfl | rfl | rfl <;> dsimp only
  · exact h1
  · exact h2
  · exact h3
  · exact h4

/-- Witness for C2 at a concrete four-block text whose contents hold `=`
characters, hyphen bullets, and both closing-marker styles. -/
theorem claim_C2_witness :
    (blocksOk
        [('1', "\nTITLE: Intro\n- revise sums\n===END WORKSHEET 1===\n".toList),
         ('2', "\nSECTION A: 2+2=__\n---END WORKSHEET 2---\n".toList),
         ('3', "\n- q1\n- q2\n".toList),
         ('4', "\nANSWER KEY:\n1. four\n===END WORKSHEET 4===\n".toList)] = true ∧
     cleanContent "\nTITLE: Intro\n- revise sums\n===END WORKSHEET 1===\n".toList ≠ [] ∧
     cleanContent "\nSECTION A: 2+2=__\n---END WORKSHEET 2---\n".toList ≠ [] ∧
     cleanContent "\n- q1\n- q2\n".toList ≠ [] ∧
     cleanContent "\nANSWER KEY:\n1. four\n===END WORKSHEET 4===\n".toList ≠ []) ∧
    (parse_worksheets (mkBlocks
        [('1', "\nTITLE: Intro\n- revise sums\n===END WORKSHEET 1===\n".toList),
         ('2', "\nSECTION A: 2+2=__\n---END WORKSHEET 2---\n".toList),
         ('3', "\n- q1\n- q2\n".toList),
         ('4', "\nANSWER KEY:\n1. four\n===END WORKSHEET 4===\n".toList)]) 4).map
      Worksheet.number = [1, 2, 3, 4] :=
  ⟨⟨by decide, by decide, by decide, by decide, by decide⟩,
   (claim_C2 "\nTITLE: Intro\n- revise sums\n===END WORKSHEET 1===\n".toList
     "\nSECTION A: 2+2=__\n---END WORKSHEET 2---\n".toList
     "\n- q1\n- q2\n".toList
     "\nANSWER KEY:\n1. four\n===END WORKSHEET 4===\n".toList 4
     (by decide) (by decide) (by decide) (by decide) (by decide)).2.1⟩

/-! ### Blank-line chunking lemmas (C7) -/

theorem splitNN_ne_nil (l : List Char) : splitNN l ≠ [] := by
  match l with
  | [] => simp [splitNN]
  | [c] => simp [splitNN]
  | c1 :: c2 :: rest =>
    simp only [splitNN]
    split
    · simp
    · exact glueHead_ne_nil _ _

theorem joinSep_cons_nil (sep : List Char) (l : List (List Char)) (hl : l ≠ []) :
    joinSep sep ([] :: l) = sep ++ joinSep sep l := by
  cases l with
  | nil => exact absurd rfl hl
  | cons h t => simp [joinSep]

theorem joinSep_glueHead (sep p : List Char) (l : List (List Char)) (hl : l ≠ []) :
    joinSep sep (glueHead p l) = p ++ joinSep sep l := by
  cases l with
  | nil => exact absurd rfl hl
  | cons h t =>
    cases t with
    | nil => simp [glueHead, joinSep]
    | cons x t2 => simp [glueHead, joinSep, List.append_assoc]

/-- Joining the blank-line split with the separator recovers the text
(`"\n\n".join(text.split("\n\n")) == text`). -/
theorem joinSep_splitNN (l : List Char) : joinSep "\n\n".toList (splitNN l) = l := by
  induction l using splitNN.induct with
  | case1 => rfl
  | case2 c => rfl
  | case3 c1 c2 rest hcond ih =>
    obtain ⟨rfl, rfl⟩ := hcond
    simp only [splitNN, and_self, if_true]
    rw [joinSep_cons_nil _ _ (splitNN_ne_nil rest), ih]
    rfl
  | case4 c1 c2 rest hcond ih =>
    simp only [splitNN, if_neg hcond]
    rw [joinSep_glueHead _ _ _ (splitNN_ne_nil (c2 :: rest)), ih]
    rfl

theorem joinSep_append (sep : List Char) (X Y : List (List Char))
    (hX : X ≠ []) (hY : Y ≠ []) :
    joinSep sep (X ++ Y) = joinSep sep X ++ sep ++ joinSep sep Y := by
  induction X with
  | nil => exact absurd rfl hX
  | cons x X ih =>
    cases X with
    | nil =>
      cases Y with
      | nil => exact absurd rfl hY
      | cons y Y2 => simp [joinSep]
    | cons x2 X2 =>
      have hstep := ih (by simp)
      have hform : (x :: x2 :: X2) ++ Y = x :: ((x2 :: X2) ++ Y) := by simp
      rw [hform]
      have h1 : joinSep sep (x :: ((x2 :: X2) ++ Y))
          = x ++ sep ++ joinSep sep ((x2 :: X2) ++ Y) := by
        simp [joinSep]
      rw [h1, hstep]
      simp [joinSep, List.append_assoc]

/-- "The concatenated `content` fields reconstruct the original text, up
to whitespace at the chunk boundaries": the four contents, interleaved
with some whitespace-only boundary strings, rebuild the text. -/
def reconstructs4 (text : List Char) (ws : List Worksheet) : Prop :=
  ∃ p0 s1 p1 s2 p2 s3 p3 : List Char,
    ws.map Worksheet.content = [p0, p1, p2, p3] ∧
    (∀ c ∈ s1, isPySpace c = true) ∧ (∀ c ∈ s2, isPySpace c = true) ∧
    (∀ c ∈ s3, isPySpace c = true) ∧
    text = p0 ++ s1 ++ p1 ++ s2 ++ p2 ++ s3 ++ p3

/-- C7 counterexample: the text "a" has no recognizable worksheet marker,
yet with `expectedCount = 4` the degenerate chunking gives every record
the entire text as content (["a","a","a","a"]), whose concatenation
cannot reconstruct the single-character original. -/
theorem claim_C7_cex :
    (∀ p ∈ markerPats, (reSplit p "a".toList).length ≤ 1) ∧
    (parse_worksheets "a".toList 4).map Worksheet.content
      = [['a'], ['a'], ['a'], ['a']] ∧
    ¬ reconstructs4 "a".toList (parse_worksheets "a".toList 4) := by
  refine ⟨by decide, by decide, ?_⟩
  rintro ⟨p0, s1, p1, s2, p2, s3, p3, hmap, _, _, _, heq⟩
  have hc : (parse_worksheets "a".toList 4).map Worksheet.content
      = [['a'], ['a'], ['a'], ['a']] := by decide
  rw [hc] at hmap
  simp only [List.cons.injEq, and_true] at hmap
  obtain ⟨rfl, rfl, rfl, rfl, _⟩ := hmap
  have := congrArg List.length heq
  simp [String.toList] at this

theorem fallbackContent_of_ne (t cc : List Char)
    (h : ∃ c ∈ cc, isPySpace c = false) : fallbackContent t cc = cc := by
  unfold fallbackContent
  rw [if_neg]
  simp only [List.isEmpty_iff]
  exact pyStrip_ne_nil h

/-- The `i`-th (0-based) of the four blank-line chunk groups the fallback
branch of `parse_worksheets` joins for `expectedCount = 4`. -/
def chunkGroup (text : List Char) (i : Nat) : List (List Char) :=
  if i < 3 then
    ((splitNN text).drop (i * ((splitNN text).length / 4))).take ((splitNN text).length / 4)
  else (splitNN text).drop (3 * ((splitNN text).length / 4))

theorem fallbackWorksheets_four (text : List Char) (hL : 4 ≤ (splitNN text).length) :
    fallbackWorksheets text 4 =
      [⟨1, fallbackContent text (joinSep "\n\n".toList (chunkGroup text 0))⟩,
       ⟨2, fallbackContent text (joinSep "\n\n".toList (chunkGroup text 1))⟩,
       ⟨3, fallbackContent text (joinSep "\n\n".toList (chunkGroup text 2))⟩,
       ⟨4, fallbackContent text (joinSep "\n\n".toList (chunkGroup text 3))⟩] := by
  have hrange : List.range 4 = [0, 1, 2, 3] := rfl
  have htake3 : (((splitNN text).drop (3 * ((splitNN text).length / 4))).take
        ((splitNN text).length - 3 * ((splitNN text).length / 4)))
      = (splitNN text).drop (3 * ((splitNN text).length / 4)) := by
    apply List.take_of_length_le
    rw [List.length_drop]
  simp only [fallbackWorksheets, hrange, List.map_cons, List.map_nil, chunkGroup,
    if_pos hL]
  norm_num
  rw [htake3]

theorem chunks_decomp (text : List Char) :
    splitNN text
      = chunkGroup text 0 ++ (chunkGroup text 1 ++ (chunkGroup text 2 ++ chunkGroup text 3)) := by
  have h2 : ((splitNN text).drop ((splitNN text).length / 4)).drop ((splitNN text).length / 4)
      = (splitNN text).drop (2 * ((splitNN text).length / 4)) := by
    rw [List.drop_drop]
    congr 1
    omega
  have h3 : ((splitNN text).drop (2 * ((splitNN text).length / 4))).drop
        ((splitNN text).length / 4)
      = (splitNN text).drop (3 * ((splitNN text).length / 4)) := by
    rw [List.drop_drop]
    congr 1
    omega
  have g0 : chunkGroup text 0 = (splitNN text).take ((splitNN text).length / 4) := by
    simp [chunkGroup]
  have g1 : chunkGroup text 1
      = ((splitNN text).drop ((splitNN text).length / 4)).take ((splitNN text).length / 4) := by
    simp [chunkGroup]
  have g2 : chunkGroup text 2
      = ((splitNN text).drop (2 * ((splitNN text).length / 4))).take
          ((splitNN text).length / 4) := by
    simp [chunkGroup]
  have g3 : chunkGroup text 3 = (splitNN text).drop (3 * ((splitNN text).length / 4)) := by
    simp [chunkGroup]
  rw [g0, g1, g2, g3, ← h3, ← h2]
  rw [List.take_append_drop, List.take_append_drop, List.take_append_drop]

theorem chunkGroup_ne_nil (text : List Char) (hL : 4 ≤ (splitNN text).length)
    (i : Nat) (hi : i < 4) : chunkGroup text i ≠ [] := by
  have hcs1 : 1 ≤ (splitNN text).length / 4 := (Nat.one_le_div_iff (by norm_num)).2 hL
  have h4cs : (splitNN text).length / 4 * 4 ≤ (splitNN text).length :=
    Nat.div_mul_le_self _ 4
  rw [← List.length_pos]
  unfold chunkGroup
  split
  · next hlt =>
    rw [List.length_take, List.length_drop]
    simp only [Nat.lt_min]
    have hmul : i * ((splitNN text).length / 4) ≤ 2 * ((splitNN text).length / 4) :=
      Nat.mul_le_mul_right _ (by omega)
    omega
  · rw [List.length_drop]
    omega

/-- C7 amended: with no recognizable marker and `expectedCount = 4`, when
the blank-line split yields at least 4 chunks and each of the four
regrouped chunk joins contains a non-whitespace character, the four
returned contents reconstruct the original text up to the blank-line
separators dropped at the three chunk-group boundaries. -/
theorem claim_C7_amended (text : List Char)
    (h : ∀ p ∈ markerPats, (reSplit p text).length ≤ 1)
    (hL : 4 ≤ (splitNN text).length)
    (hq : ∀ i < 4, ∃ c ∈ joinSep "\n\n".toList (chunkGroup text i), isPySpace c = false) :
    reconstructs4 text (parse_worksheets text 4) := by
  rw [parse_worksheets_fallback text 4 h, fallbackWorksheets_four text hL]
  refine ⟨joinSep "\n\n".toList (chunkGroup text 0), "\n\n".toList,
    joinSep "\n\n".toList (chunkGroup text 1), "\n\n".toList,
    joinSep "\n\n".toList (chunkGroup text 2), "\n\n".toList,
    joinSep "\n\n".toList (chunkGroup text 3), ?_, by decide, by decide, by decide, ?_⟩
  · simp only [List.map_cons, List.map_nil]
    rw [fallbackContent_of_ne _ _ (hq 0 (by norm_num)),
      fallbackContent_of_ne _ _ (hq 1 (by norm_num)),
      fallbackContent_of_ne _ _ (hq 2 (by norm_num)),
      fallbackContent_of_ne _ _ (hq 3 (by norm_num))]
  · have hg0 := chunkGroup_ne_nil text hL 0 (by norm_num)
    have hg1 := chunkGroup_ne_nil text hL 1 (by norm_num)
    have hg2 := chunkGroup_ne_nil text hL 2 (by norm_num)
    have hg3 := chunkGroup_ne_nil text hL 3 (by norm_num)
    have hrec := joinSep_splitNN text
    rw [chunks_decomp text] at hrec
    rw [joinSep_append _ _ _ hg0
        (by simp [hg1]),
      joinSep_append _ _ _ hg1
        (by simp [hg2]),
      joinSep_append _ _ _ hg2 hg3] at hrec
    refine hrec.symm.trans ?_
    simp [List.append_assoc]

/-- Witness for C7 (amended) at a concrete four-chunk text. -/
theorem claim_C7_amended_witness :
    ((∀ p ∈ markerPats, (reSplit p "aa\n\nbb\n\ncc\n\ndd".toList).length ≤ 1) ∧
     4 ≤ (splitNN "aa\n\nbb\n\ncc\n\ndd".toList).length ∧
     (∀ i < 4, ∃ c ∈ joinSep "\n\n".toList (chunkGroup "aa\n\nbb\n\ncc\n\ndd".toList i),
        isPySpace c = false)) ∧
    reconstructs4 "aa\n\nbb\n\ncc\n\ndd".toList
      (parse_worksheets "aa\n\nbb\n\ncc\n\ndd".toList 4) :=
  ⟨⟨by decide, by decide, by decide⟩,
   claim_C7_amended "aa\n\nbb\n\ncc\n\ndd".toList (by decide) (by decide) (by decide)⟩

end VoicePlanner
